import Mathlib

/-!
Shallow embedding of the Julia-to-WebAssembly text generator
(src/libjulia/backends/webassembly/WebAssembly.cpp) together with proofs
about the claims of the specification.

The generator walks the inline-assembly AST (boost::static_visitor
dispatch) and appends S-expression text to an IndentedWriter.  Fatal
solAssert violations are modelled as errors of an Except monad; the two
kinds of undefined behaviour the source can run into (an out-of-range
std::vector subscript and dereferencing an empty pointer) are modelled as
two further, distinct error values.
-/

/-- Kind tag of an IR literal (assembly::LiteralKind in AsmData.h). -/
inductive LiteralKind where
  | Number
  | Boolean
  | Str
deriving DecidableEq

/-- A typed name (assembly::TypedName): a binding name with its IR type. -/
structure TypedName where
  name : String
  type : String
deriving DecidableEq

/-- An IR literal (assembly::Literal): kind tag, value text, declared type. -/
structure Literal where
  kind : LiteralKind
  value : String
  type : String
deriving DecidableEq

/-- Failure modes of the generator.  assertViolation models a solAssert
failure and carries the message; outOfRange models an out-of-range
std::vector subscript (undefined behaviour in the C++ source); nullDeref
models dereferencing an empty shared pointer (also undefined behaviour). -/
inductive GenError where
  | assertViolation (msg : String)
  | outOfRange
  | nullDeref
deriving DecidableEq

/-- Modelled from the spec: the Text Emitter (class IndentedWriter, whose
source file is not part of this repository snapshot; only its use sites
are).  Per the spec it appends literal fragments to the current line,
starts new lines at the current indentation, tracks nesting depth with
indent and unindent, and format returns the concatenated text.  Lines are
kept most recent first; the head is the line currently being appended to. -/
structure IndentedWriter where
  rlines : List (Nat × String)
  ind : Nat
deriving DecidableEq

/-- Append a fragment to the current line. -/
def IndentedWriter.add (w : IndentedWriter) (s : String) : IndentedWriter :=
  match w.rlines with
  | [] => ⟨[(w.ind, s)], w.ind⟩
  | (i, c) :: rest => ⟨(i, c ++ s) :: rest, w.ind⟩

/-- Start a fresh line at the current indentation. -/
def IndentedWriter.newLine (w : IndentedWriter) : IndentedWriter :=
  ⟨(w.ind, "") :: w.rlines, w.ind⟩

/-- Start a fresh line and append a fragment to it. -/
def IndentedWriter.addLine (w : IndentedWriter) (s : String) : IndentedWriter :=
  (w.newLine).add s

/-- Increase the indentation level. -/
def IndentedWriter.indent (w : IndentedWriter) : IndentedWriter :=
  ⟨w.rlines, w.ind + 1⟩

/-- Decrease the indentation level (never below zero). -/
def IndentedWriter.unindent (w : IndentedWriter) : IndentedWriter :=
  ⟨w.rlines, w.ind - 1⟩

/-- Indentation padding: four spaces per level. -/
def indentPad (n : Nat) : String :=
  String.mk (List.replicate (4 * n) ' ')

/-- Final concatenated text of the writer. -/
def IndentedWriter.format (w : IndentedWriter) : String :=
  String.join ((w.rlines.reverse).map (fun p => indentPad p.1 ++ p.2 ++ "\n"))

/-- The writer a fresh Generator starts from: one empty open line, depth 0. -/
def initialWriter : IndentedWriter := ⟨[(0, "")], 0⟩

/-!
The IR statement tree (the boost::variant assembly::Statement) and switch
cases (assembly::Case).  A Block in the source is a statement list; the
blockStmt constructor is a Block appearing in statement position.
Pointer-valued fields of the source (the value of a VariableDeclaration,
an Assignment or a Case, and the scrutinee of a Switch) are Options.
The field spelled variables in the source is vars here, since Lean
reserves that word.
-/
mutual
inductive Stmt where
  | instruction : Stmt
  | functionalInstruction : Stmt
  | stackAssignment : Stmt
  | label : Stmt
  | literal (lit : Literal) : Stmt
  | identifier (name : String) : Stmt
  | variableDeclaration (vars : List TypedName) (value : Option Stmt) : Stmt
  | assignment (variableName : String) (value : Option Stmt) : Stmt
  | functionDefinition (name : String) (arguments : List TypedName)
      (returns : List TypedName) (body : List Stmt) : Stmt
  | functionCall (functionName : String) (arguments : List Stmt) : Stmt
  | switchStmt (expression : Option Stmt) (cases : List SwitchCase) : Stmt
  | blockStmt (statements : List Stmt) : Stmt

inductive SwitchCase where
  | mk (value : Option Literal) (body : List Stmt) : SwitchCase
end

/-- Supported IR type names (the local set in Generator.convertType). -/
def supportedTypes : List String := ["bool", "u8", "s8", "u32", "s32", "u64", "s64"]

/-- Message shape of the unsupported-type failure of Generator.convertType. -/
def unsupportedTypeError (t : String) : GenError :=
  .assertViolation ("Type (" ++ t ++ ") not supported yet.")

/-- Translation of Generator.convertType: reject the empty name, map every
supported name to i64, reject everything else naming the offending type. -/
def convertType (type : String) : Except GenError String :=
  if type = "" then .error (.assertViolation "Only Julia input is supported.")
  else if type ∈ supportedTypes then .ok "i64"
  else .error (unsupportedTypeError type)

/-- Translation of the Literal case of the visitor: a number emits a typed
constant with the literal text, a boolean emits a constant 1 or 0, any
other kind is a fatal error. -/
def visitLit (l : Literal) (w : IndentedWriter) : Except GenError IndentedWriter :=
  match l.kind with
  | .Number =>
      (convertType l.type).map fun t =>
        w.add ("(" ++ t ++ ".const " ++ l.value ++ ")")
  | .Boolean =>
      (convertType l.type).map fun t =>
        w.add ("(" ++ t ++ ".const " ++ (if l.value = "true" then "1" else "0") ++ ")")
  | .Str => .error (.assertViolation "Non-number literals not supported.")

/-- Translation of the parameter loop of the FunctionDefinition case: one
param line per argument, each type converted. -/
def emitParams : List TypedName → IndentedWriter → Except GenError IndentedWriter
  | [], w => .ok w
  | a :: rest, w => do
      let t ← convertType a.type
      emitParams rest (w.addLine ("(param $" ++ a.name ++ " " ++ t ++ ")"))

/-- Translation of the return loop of the FunctionDefinition case: for each
return binding, remember its name and emit a result line and a local line.
The first component of the result is the final value of returnName. -/
def emitReturns : List TypedName → String → IndentedWriter →
    Except GenError (String × IndentedWriter)
  | [], rn, w => .ok (rn, w)
  | r :: rest, _, w => do
      let t ← convertType r.type
      let w := w.addLine ("(result " ++ t ++ ")")
      let w := w.addLine ("(local $" ++ r.name ++ " " ++ t ++ ")")
      emitReturns rest r.name w

/-- Builtin table of Generator.resolveBuiltinFunction: the four recognised
callee names and the native instruction each one maps to. -/
def resolveBuiltinName (n : String) : Option String :=
  if n = "add64" then some "i64.add"
  else if n = "sub64" then some "i64.sub"
  else if n = "mul64" then some "i64.mul"
  else if n = "gt64" then some "i64.gt_u"
  else none

mutual

/-- Translation of the visitor dispatch (the operator() overloads of class
Generator), one branch per statement kind. -/
def visit : Stmt → IndentedWriter → Except GenError IndentedWriter
  | .instruction, _ =>
      .error (.assertViolation "Instructions are not supported in Julia.")
  | .functionalInstruction, _ =>
      .error (.assertViolation "Instructions are not supported in Julia.")
  | .stackAssignment, _ =>
      .error (.assertViolation "Assignment from stack is not supported in Julia.")
  | .label, _ =>
      .error (.assertViolation "Labels are not supported in Julia.")
  | .literal l, w => visitLit l w
  | .identifier n, w => .ok (w.add ("(get_local $" ++ n ++ ")"))
  | .variableDeclaration vars val, w =>
      match vars with
      | [v] => do
          let t ← convertType v.type
          let w := w.addLine ("(local $" ++ v.name ++ " " ++ t ++ ")")
          let w := (w.addLine ("(set_local $" ++ v.name ++ " ")).indent
          let w ← match val with
                  | none => Except.error GenError.nullDeref
                  | some e => visit e w
          pure (((w.unindent).add ")").newLine)
      | _ => .error (.assertViolation "Tuples not supported yet.")
  | .assignment n val, w => do
      let w := (w.addLine ("(set_local $" ++ n ++ " ")).indent
      let w ← match val with
              | none => Except.error GenError.nullDeref
              | some e => visit e w
      pure (((w.unindent).add ")").newLine)
  | .functionDefinition n args rets body, w => do
      let w := (((w.newLine).addLine ("(func $" ++ n ++ " ")).indent)
      let w ← emitParams args w
      if rets.length ≤ 1 then do
        let rw ← emitReturns rets "" w
        let w := ((rw.2.newLine).newLine)
        let w ← visitStatements body w
        let w := ((w.newLine).newLine)
        let w := if rw.1 ≠ "" then w.addLine ("(return $" ++ rw.1 ++ ")") else w
        pure ((((w.unindent).addLine ")")).newLine)
      else .error (.assertViolation "Multiple return values not supported yet.")
  | .functionCall n args, w =>
      match resolveBuiltinName n with
      | some instr =>
          -- resolveBuiltinFunction: emit the native instruction head, then
          -- require exactly two arguments and lower them left to right
          let w := (w.add ("(" ++ instr ++ " ")).indent
          match args with
          | [a, b] => do
              let w ← visit a w
              let w ← visit b (w.newLine)
              pure ((w.unindent).add ")")
          | _ => .error (.assertViolation "")
      | none => do
          let w := (w.addLine ("(call $" ++ n)).indent
          let w ← visitCallArgs args w
          pure ((w.unindent).addLine ")")
  | .switchStmt exprOpt cases, w => visitSwitch exprOpt cases w
  | .blockStmt ss, w => do
      let w ← visitStatements ss ((w.add "(block ").indent)
      pure ((w.unindent).add ")")
termination_by s w => sizeOf s

/-- Translation of the Switch case of the visitor.  The source first
asserts cases.size() <= 2, then asserts cases[0].value || cases[1].value
(an out-of-range read of cases[1] when fewer than two cases exist and
cases[0] carries no value, and of cases[0] when no case exists), then sets
defaultcase = cases[0].value ? 0 : 1 -- the index of the first
value-carrying case, despite the name -- and, since !!defaultcase equals
defaultcase here, emits both the then branch and (when two cases exist)
the else branch from cases[defaultcase], wrapping each body in the Block
visitor. -/
def visitSwitch : Option Stmt → List SwitchCase → IndentedWriter →
    Except GenError IndentedWriter
  | _, [], _ =>
      -- cases[0] is read by the default-case assertion: out of range
      Except.error GenError.outOfRange
  | _, [⟨none, _⟩], _ =>
      -- cases[0].value is empty, so the assertion reads cases[1]: out of range
      Except.error GenError.outOfRange
  | exprOpt, [⟨some v0, b0⟩], w => do
      -- defaultcase = 0; the bound check 0 <= 0 holds; single then branch
      let w := (((w.addLine "(if (result i64) ").indent).add "(i64.eq ")
      let w ← match exprOpt with
              | none => Except.error GenError.nullDeref
              | some e => visit e w
      let w ← visitLit v0 (w.add " ")
      let w := ((((w.add ")").newLine).add "(then ").indent)
      let w ← visitStatements b0 ((w.add "(block ").indent)
      let w := ((w.unindent).add ")")
      let w := ((w.unindent).addLine ")")
      pure ((w.unindent).addLine ")")
  | exprOpt, [⟨some v0, b0⟩, _], w => do
      -- defaultcase = 0 and !!defaultcase = 0: the comparison value, the
      -- then body and the else body are all taken from cases[0]
      let w := (((w.addLine "(if (result i64) ").indent).add "(i64.eq ")
      let w ← match exprOpt with
              | none => Except.error GenError.nullDeref
              | some e => visit e w
      let w ← visitLit v0 (w.add " ")
      let w := ((((w.add ")").newLine).add "(then ").indent)
      let w ← visitStatements b0 ((w.add "(block ").indent)
      let w := ((w.unindent).add ")")
      let w := ((w.unindent).addLine ")")
      let w := ((w.add "(else ").indent)
      let w ← visitStatements b0 ((w.add "(block ").indent)
      let w := ((w.unindent).add ")")
      let w := ((w.unindent).addLine ")")
      pure ((w.unindent).addLine ")")
  | _, [⟨none, _⟩, ⟨none, _⟩], _ =>
      -- neither case carries a value: the default-case assertion fails
      Except.error (GenError.assertViolation "")
  | exprOpt, [⟨none, _⟩, ⟨some v1, b1⟩], w => do
      -- defaultcase = 1 and !!defaultcase = 1: the comparison value, the
      -- then body and the else body are all taken from cases[1]
      let w := (((w.addLine "(if (result i64) ").indent).add "(i64.eq ")
      let w ← match exprOpt with
              | none => Except.error GenError.nullDeref
              | some e => visit e w
      let w ← visitLit v1 (w.add " ")
      let w := ((((w.add ")").newLine).add "(then ").indent)
      let w ← visitStatements b1 ((w.add "(block ").indent)
      let w := ((w.unindent).add ")")
      let w := ((w.unindent).addLine ")")
      let w := ((w.add "(else ").indent)
      let w ← visitStatements b1 ((w.add "(block ").indent)
      let w := ((w.unindent).add ")")
      let w := ((w.unindent).addLine ")")
      pure ((w.unindent).addLine ")")
  | _, _ :: _ :: _ :: _, _ =>
      -- more than two cases: the size assertion fails
      Except.error (GenError.assertViolation "")
termination_by eOpt cases w => sizeOf eOpt + sizeOf cases

/-- Translation of Generator.visitStatements: visit each statement of a
block in order. -/
def visitStatements : List Stmt → IndentedWriter → Except GenError IndentedWriter
  | [], w => .ok w
  | s :: rest, w => do
      let w ← visit s w
      visitStatements rest w
termination_by ss w => sizeOf ss

/-- Translation of the argument loop of the FunctionCall case: a space,
the lowered argument, then a fresh line, for each argument in order. -/
def visitCallArgs : List Stmt → IndentedWriter → Except GenError IndentedWriter
  | [], w => .ok w
  | s :: rest, w => do
      let w ← visit s (w.add " ")
      visitCallArgs rest (w.newLine)
termination_by ss w => sizeOf ss

end

/-- Translation of the Generator constructor: emit the module wrapper and
lower the root block statements directly inside it, without a block
grouping construct. -/
def generatorRun (block : List Stmt) : Except GenError IndentedWriter := do
  let w := ((initialWriter.addLine "(module ").indent)
  let w ← visitStatements block w
  pure ((w.unindent).addLine ")")

/-- Translation of julia::WebAssembly.assemble: run a fresh Generator on
the block and return the formatted text. -/
def assemble (block : List Stmt) : Except GenError String :=
  (generatorRun block).map IndentedWriter.format

/-- Two separate translations of the same root block, each with its own
fresh Generator, as in two successive calls of assemble. -/
def translateTwice (block : List Stmt) :
    Except GenError String × Except GenError String :=
  (assemble block, assemble block)

/-- Does the pattern occur at the head of the character list? -/
def leadsWith : List Char → List Char → Bool
  | [], _ => true
  | _ :: _, [] => false
  | p :: ps, c :: cs => p == c && leadsWith ps cs

/-- Number of positions at which the pattern occurs in the character list. -/
def countOcc (pat : List Char) : List Char → Nat
  | [] => 0
  | c :: rest => (if leadsWith pat (c :: rest) then 1 else 0) + countOcc pat rest

/-- Number of occurrences of a pattern string in a string. -/
def countOccS (s pat : String) : Nat := countOcc pat.data s.data

/-!
Theorems about the claims.  The simp sets unfold the visitor equations
(the visitor family is compiled by well-founded recursion, so proofs
rewrite with its defining equations) together with the Except monad
operations.
-/

set_option maxRecDepth 100000

/-- Every supported type name converts to i64. -/
theorem convertType_of_supported (t : String) (h : t ∈ supportedTypes) :
    convertType t = .ok "i64" := by
  fin_cases h <;> rfl

/-- C6 counterexample: the empty type name is outside the supported set,
yet convertType rejects it with the only-Julia-input condition, not with
the unsupported-type condition carrying the offending name, refuting the
claim at the input "". -/
theorem c6_counterexample_empty_type_name :
    convertType "" = .error (.assertViolation "Only Julia input is supported.") ∧
      convertType "" ≠ .error (unsupportedTypeError "") := by
  refine ⟨rfl, ?_⟩
  simp [convertType, unsupportedTypeError]

/-- C6 (amended): every type name in the supported set maps to i64; every
nonempty name outside the set fails with the unsupported-type condition
carrying the offending name; the empty name fails with the separate
only-Julia-input condition. -/
theorem c6_convertType_behaviour :
    (∀ t, t ∈ supportedTypes → convertType t = .ok "i64") ∧
    (∀ t, t ≠ "" → t ∉ supportedTypes →
      convertType t = .error (unsupportedTypeError t)) ∧
    convertType "" = .error (.assertViolation "Only Julia input is supported.") := by
  refine ⟨fun t h => convertType_of_supported t h, fun t h1 h2 => ?_, rfl⟩
  simp only [convertType, if_neg h1, if_neg h2]

/-- C6 witness: the amended theorem applied at the inputs u64 and u128. -/
theorem c6_witness :
    convertType "u64" = .ok "i64" ∧
      convertType "u128" = .error (unsupportedTypeError "u128") :=
  ⟨c6_convertType_behaviour.1 "u64" (by decide),
   c6_convertType_behaviour.2.1 "u128" (by decide) (by decide)⟩

/-- C7: for a supported type, a numeric literal lowers to a typed constant
carrying the value text verbatim, a boolean literal with value true lowers
to the constant 1 and with value false to the constant 0, and a literal of
any other kind fails fatally. -/
theorem c7_literal_lowering (v t : String) (w : IndentedWriter)
    (h : t ∈ supportedTypes) :
    visitLit ⟨.Number, v, t⟩ w = .ok (w.add ("(i64.const " ++ v ++ ")")) ∧
    visitLit ⟨.Boolean, "true", t⟩ w = .ok (w.add "(i64.const 1)") ∧
    visitLit ⟨.Boolean, "false", t⟩ w = .ok (w.add "(i64.const 0)") ∧
    (∀ v2 t2, visitLit ⟨.Str, v2, t2⟩ w =
      .error (.assertViolation "Non-number literals not supported.")) := by
  have hc := convertType_of_supported t h
  refine ⟨?_, ?_, ?_, fun v2 t2 => rfl⟩ <;>
    simp [visitLit, hc, Except.map]

/-- C7 witness: the theorem applied at the literal 5 of type u64. -/
theorem c7_witness :
    visitLit ⟨.Number, "5", "u64"⟩ initialWriter =
      .ok (initialWriter.add ("(i64.const " ++ "5" ++ ")")) :=
  (c7_literal_lowering "5" "u64" initialWriter (by decide)).1

/-- C4: a call to add64, sub64, mul64 or gt64 with exactly two arguments
emits the corresponding native instruction (i64.add, i64.sub, i64.mul,
i64.gt_u) wrapping the two lowered arguments in left-to-right order, not a
call instruction; a call to any other name emits a call instruction naming
the callee with each argument lowered in order. -/
theorem c4_builtin_dispatch :
    (∀ (a b : Stmt) (w : IndentedWriter),
      visit (.functionCall "add64" [a, b]) w =
        do
          let w1 ← visit a ((w.add "(i64.add ").indent)
          let w2 ← visit b (w1.newLine)
          pure ((w2.unindent).add ")")) ∧
    (∀ (a b : Stmt) (w : IndentedWriter),
      visit (.functionCall "sub64" [a, b]) w =
        do
          let w1 ← visit a ((w.add "(i64.sub ").indent)
          let w2 ← visit b (w1.newLine)
          pure ((w2.unindent).add ")")) ∧
    (∀ (a b : Stmt) (w : IndentedWriter),
      visit (.functionCall "mul64" [a, b]) w =
        do
          let w1 ← visit a ((w.add "(i64.mul ").indent)
          let w2 ← visit b (w1.newLine)
          pure ((w2.unindent).add ")")) ∧
    (∀ (a b : Stmt) (w : IndentedWriter),
      visit (.functionCall "gt64" [a, b]) w =
        do
          let w1 ← visit a ((w.add "(i64.gt_u ").indent)
          let w2 ← visit b (w1.newLine)
          pure ((w2.unindent).add ")")) ∧
    (∀ (n : String) (args : List Stmt) (w : IndentedWriter),
      n ∉ ["add64", "sub64", "mul64", "gt64"] →
        visit (.functionCall n args) w =
          do
            let w1 ← visitCallArgs args ((w.addLine ("(call $" ++ n)).indent)
            pure ((w1.unindent).addLine ")")) := by
  refine ⟨fun a b w => ?_, fun a b w => ?_, fun a b w => ?_, fun a b w => ?_,
    fun n args w h => ?_⟩
  · simp [visit, resolveBuiltinName]
  · simp [visit, resolveBuiltinName]
  · simp [visit, resolveBuiltinName]
  · simp [visit, resolveBuiltinName]
  · simp only [List.mem_cons, List.not_mem_nil, or_false, not_or] at h
    obtain ⟨h1, h2, h3, h4⟩ := h
    simp [visit, resolveBuiltinName, h1, h2, h3, h4]

/-- C4 witness: the non-builtin conjunct applied to a call named foo. -/
theorem c4_witness :
    visit (.functionCall "foo" [.identifier "a"]) initialWriter =
      (do
        let w1 ← visitCallArgs [Stmt.identifier "a"]
          ((initialWriter.addLine ("(call $" ++ "foo")).indent)
        pure ((w1.unindent).addLine ")")) :=
  c4_builtin_dispatch.2.2.2.2 "foo" [.identifier "a"] initialWriter (by decide)

/-- C1 evaluation at the failing input: a two-case switch over the
scrutinee s, with the default case (no value, body reading d) first and
the value-bearing case (value 1, body reading x) second.  The claim
predicts the then branch reads x and the else branch reads d, so one
occurrence of each local read; the code emits the value-bearing body in
both branches, so the read of x occurs twice and the read of d never. -/
theorem c1_else_branch_duplicates_nondefault_body :
    (assemble [.switchStmt (some (.identifier "s"))
        [⟨none, [.identifier "d"]⟩,
         ⟨some ⟨.Number, "1", "u64"⟩, [.identifier "x"]⟩]]).toOption.map
      (fun s => (countOccS s "(get_local $x)", countOccS s "(get_local $d)"))
      = some (2, 0) := by
  simp only [assemble, generatorRun, visit, visitSwitch, visitStatements, visitLit,
    convertType, supportedTypes]
  rfl

/-- C2 evaluation at the failing input: a two-case switch in which both
cases carry a comparison value (so no case is a default case) passes the
default-case assertion and translates successfully, against the claim
that it fails with a shape error; a zero-case switch fails through an
out-of-range read of cases[0], not through an assertion; only the
more-than-two-cases half behaves as the claim states. -/
theorem c2_no_default_case_accepted :
    (assemble [.switchStmt (some (.identifier "s"))
        [⟨some ⟨.Number, "0", "u64"⟩, []⟩,
         ⟨some ⟨.Number, "1", "u64"⟩, []⟩]]).isOk = true ∧
    assemble [.switchStmt (some (.identifier "s")) []] = .error .outOfRange ∧
    (∀ (eOpt : Option Stmt) (c1 c2 c3 : SwitchCase) (rest : List SwitchCase)
        (w : IndentedWriter),
      visitSwitch eOpt (c1 :: c2 :: c3 :: rest) w =
        .error (.assertViolation "")) := by
  refine ⟨?_, ?_, fun eOpt c1 c2 c3 rest w => ?_⟩
  · simp only [assemble, generatorRun, visit, visitSwitch, visitStatements, visitLit,
      convertType, supportedTypes]
    rfl
  · simp only [assemble, generatorRun, visit, visitSwitch, visitStatements]
    rfl
  · simp [visitSwitch]

/-- C3 counterexample: a switch with exactly one case that is the default
case (it carries no comparison value) does not translate successfully;
the default-case assertion reads case index 1 out of range. -/
theorem c3_counterexample_lone_default_case :
    assemble [.switchStmt (some (.identifier "x")) [⟨none, []⟩]] =
      .error .outOfRange := by
  simp only [assemble, generatorRun, visit, visitSwitch, visitStatements]
  rfl

/-- C3 (amended): a single-case switch translates only when its lone case
carries a comparison value; it then emits a conditional testing the
lowered scrutinee against that value, lowers the case body (wrapped as a
block) in the then branch, and emits no else branch; a lone valueless
case instead triggers the out-of-range read of case index 1. -/
theorem c3_single_case_switch_behaviour :
    (∀ (nm val : String) (b : List Stmt) (w : IndentedWriter),
      visitSwitch (some (.identifier nm)) [⟨some ⟨.Number, val, "u64"⟩, b⟩] w =
        (visitStatements b
          (w.addLine "(if (result i64) " |>.indent |>.add "(i64.eq "
            |>.add ("(get_local $" ++ nm ++ ")") |>.add " "
            |>.add ("(" ++ "i64" ++ ".const " ++ val ++ ")") |>.add ")"
            |>.newLine |>.add "(then " |>.indent |>.add "(block " |>.indent)).map
          (fun v => v.unindent |>.add ")" |>.unindent |>.addLine ")"
            |>.unindent |>.addLine ")")) ∧
    (∀ (eOpt : Option Stmt) (b : List Stmt) (w : IndentedWriter),
      visitSwitch eOpt [⟨none, b⟩] w = .error .outOfRange) := by
  refine ⟨fun nm val b w => ?_, fun eOpt b w => ?_⟩
  · simp [visitSwitch, visit, visitLit, convertType, supportedTypes,
      Bind.bind, Except.bind, Functor.map, Except.map, Pure.pure, Except.pure]
  · simp [visitSwitch]

/-- C5 counterexample: a function definition with exactly one return
binding whose name is the empty string.  The emitted text contains the
result declaration and the local, but the trailing return is skipped
because the source tests the remembered name for emptiness, refuting the
claim that every single-return function text ends with an explicit
return. -/
theorem c5_counterexample_empty_return_name :
    (assemble [.functionDefinition "f" [] [⟨"", "u64"⟩] []]).toOption.map
      (fun s => (countOccS s "(result", countOccS s "(return")) =
      some (1, 0) := by
  simp only [assemble, generatorRun, visit, visitStatements, emitParams,
    emitReturns, convertType, supportedTypes]
  rfl

/-- C5 (amended): for a function definition with exactly one return
binding whose name is nonempty and whose type converts, once the
parameter loop succeeds the emitted function consists of the header, one
result declaration, one local declaration for the return binding, the
lowered body, exactly one trailing return of the return-binding local and
the closing parenthesis; and a function definition with more than one
return binding always fails fatally. -/
theorem c5_function_definition_return_shape :
    (∀ (n r t : String) (args : List TypedName) (body : List Stmt)
        (w w1 : IndentedWriter),
      r ≠ "" → convertType t = .ok "i64" →
      emitParams args (((w.newLine).addLine ("(func $" ++ n ++ " ")).indent) =
        .ok w1 →
      visit (.functionDefinition n args [⟨r, t⟩] body) w =
        (visitStatements body
          (w1.addLine "(result i64)" |>.addLine ("(local $" ++ r ++ " i64)")
            |>.newLine |>.newLine)).map
          (fun v => v.newLine |>.newLine |>.addLine ("(return $" ++ r ++ ")")
            |>.unindent |>.addLine ")" |>.newLine)) ∧
    (∀ (n : String) (args : List TypedName) (r1 r2 : TypedName)
        (rs : List TypedName) (body : List Stmt) (w : IndentedWriter),
      (visit (.functionDefinition n args (r1 :: r2 :: rs) body) w).isOk =
        false) := by
  constructor
  · intro n r t args body w w1 hr ht hp
    simp only [String.append_assoc] at hp
    simp [visit, hp, ht, emitReturns, hr, String.append_assoc,
      Bind.bind, Except.bind, Functor.map, Except.map, Pure.pure, Except.pure]
  · intro n args r1 r2 rs body w
    simp only [visit]
    cases h : emitParams args (((w.newLine).addLine ("(func $" ++ n ++ " ")).indent) with
    | error e =>
        simp [h, Bind.bind, Except.bind, Except.isOk, Except.toBool]
    | ok w1 =>
        have hlen : ¬ ((r1 :: r2 :: rs).length ≤ 1) := by
          simp [List.length]
        simp [h, hlen, Bind.bind, Except.bind, Except.isOk, Except.toBool]

/-- C5 witness: the single-return conjunct applied to a function f with
one u64 parameter x and return binding r. -/
theorem c5_witness :
    visit (.functionDefinition "f" [⟨"x", "u64"⟩] [⟨"r", "u64"⟩] [])
        initialWriter =
      (visitStatements []
        ((((initialWriter.newLine).addLine ("(func $" ++ "f" ++ " ")).indent.addLine
            ("(param $" ++ "x" ++ " " ++ "i64" ++ ")")).addLine "(result i64)"
          |>.addLine ("(local $" ++ "r" ++ " i64)") |>.newLine |>.newLine)).map
        (fun v => v.newLine |>.newLine |>.addLine ("(return $" ++ "r" ++ ")")
          |>.unindent |>.addLine ")" |>.newLine) :=
  c5_function_definition_return_shape.1 "f" "r" "u64" [⟨"x", "u64"⟩] []
    initialWriter
    ((((initialWriter.newLine).addLine ("(func $" ++ "f" ++ " ")).indent).addLine
      ("(param $" ++ "x" ++ " " ++ "i64" ++ ")"))
    (by decide) rfl rfl

/-- C8: the translator is deterministic.  The entry point constructs a
fresh Generator (and with it a fresh writer) per call and reads no other
state, which the embedding reflects by assemble being a function of the
root block alone; two separate translations of the same block therefore
return byte-identical text. -/
theorem c8_translation_deterministic (b : List Stmt) :
    (translateTwice b).1 = (translateTwice b).2 := rfl

/-- C9 counterexample: a function definition body is a Block node nested
in the tree, yet its statements are spliced into the function construct
without any block grouping: the emitted module for a function whose body
holds one statement contains no occurrence of the block construct opener,
refuting the claim for Blocks nested as function bodies. -/
theorem c9_counterexample_function_body_not_wrapped :
    (assemble [.functionDefinition "f" [] [] [.identifier "x"]]).toOption.map
      (fun s => countOccS s "(block") = some 0 := by
  simp only [assemble, generatorRun, visit, visitStatements, emitParams,
    emitReturns]
  rfl

/-- C9 (amended): the root block statements are emitted directly inside
the module wrapper with no block grouping construct, and likewise a
function definition body is spliced without a wrapper; every Block
dispatched as a statement through the visitor is wrapped in a block
grouping construct. -/
theorem c9_block_wrapping_behaviour :
    (∀ (b : List Stmt),
      assemble b =
        (visitStatements b ((initialWriter.addLine "(module ").indent)).map
          (fun w => (((w.unindent).addLine ")")).format)) ∧
    (∀ (ss : List Stmt) (w : IndentedWriter),
      visit (.blockStmt ss) w =
        (visitStatements ss ((w.add "(block ").indent)).map
          (fun v => (v.unindent).add ")")) ∧
    (∀ (n : String) (body : List Stmt) (w : IndentedWriter),
      visit (.functionDefinition n [] [] body) w =
        (visitStatements body
          ((w.newLine).addLine ("(func $" ++ n ++ " ") |>.indent
            |>.newLine |>.newLine)).map
          (fun v => v.newLine |>.newLine |>.unindent |>.addLine ")"
            |>.newLine)) := by
  refine ⟨fun b => ?_, fun ss w => ?_, fun n body w => ?_⟩
  · cases h : visitStatements b ((initialWriter.addLine "(module ").indent) with
    | error e =>
        simp [assemble, generatorRun, h,
          Bind.bind, Except.bind, Functor.map, Except.map, Pure.pure, Except.pure]
    | ok v =>
        simp [assemble, generatorRun, h,
          Bind.bind, Except.bind, Functor.map, Except.map, Pure.pure, Except.pure]
  · simp [visit,
      Bind.bind, Except.bind, Functor.map, Except.map, Pure.pure, Except.pure]
  · simp [visit, emitParams, emitReturns,
      Bind.bind, Except.bind, Functor.map, Except.map, Pure.pure, Except.pure]

/-- C10: lowering a single-binding variable declaration or an assignment
whose value expression is absent reaches the unconditional dereference
with no presence check: the embedding yields the null-dereference marker
(undefined behaviour in the source), not an assertion diagnostic; with
the value present, the dereferenced expression is lowered inside the
set-local construct. -/
theorem c10_value_dereference_unconditional :
    (∀ (n t : String) (w : IndentedWriter), convertType t = .ok "i64" →
      visit (.variableDeclaration [⟨n, t⟩] none) w = .error .nullDeref) ∧
    (∀ (n : String) (w : IndentedWriter),
      visit (.assignment n none) w = .error .nullDeref) ∧
    (∀ (n t : String) (e : Stmt) (w : IndentedWriter),
      convertType t = .ok "i64" →
      visit (.variableDeclaration [⟨n, t⟩] (some e)) w =
        (visit e
          (w.addLine ("(local $" ++ n ++ " " ++ "i64" ++ ")")
            |>.addLine ("(set_local $" ++ n ++ " ") |>.indent)).map
          (fun v => v.unindent |>.add ")" |>.newLine)) ∧
    (∀ (n : String) (e : Stmt) (w : IndentedWriter),
      visit (.assignment n (some e)) w =
        (visit e ((w.addLine ("(set_local $" ++ n ++ " ")).indent)).map
          (fun v => v.unindent |>.add ")" |>.newLine)) := by
  refine ⟨fun n t w ht => ?_, fun n w => ?_, fun n t e w ht => ?_,
    fun n e w => ?_⟩
  · simp [visit, ht,
      Bind.bind, Except.bind, Functor.map, Except.map, Pure.pure, Except.pure]
  · simp [visit,
      Bind.bind, Except.bind, Functor.map, Except.map, Pure.pure, Except.pure]
  · simp [visit, ht, String.append_assoc,
      Bind.bind, Except.bind, Functor.map, Except.map, Pure.pure, Except.pure]
  · simp [visit,
      Bind.bind, Except.bind, Functor.map, Except.map, Pure.pure, Except.pure]

/-- C10 witness: the declaration conjunct applied at a u64 binding x with
absent value. -/
theorem c10_witness :
    visit (.variableDeclaration [⟨"x", "u64"⟩] none) initialWriter =
      .error .nullDeref :=
  c10_value_dereference_unconditional.1 "x" "u64" initialWriter rfl
